import Mathlib

/-!
Shallow embedding of the figma-to-psd layer-composition pipeline:
`json-helper.py` (Layer-Catalog Builder) and `figmapsd.py` (Composite
Assembler / export chain).

Filesystem effects are made explicit: a directory is an optional list of
filenames (`none` = the directory does not exist), an image-metadata probe
is a function `String → Option ImgInfo` (`none` = the probe raises), and
file writes performed by the export chain are collected in a list.
Python non-negative `int` values become `Nat`, JSON numbers for layer
positions become `Int`, and `opacity` floats become `ℚ`.
-/

/-- Width/height/mode triple returned by a successful `PIL.Image.open`
probe, mirroring the dict built in `get_image_info`. -/
structure ImgInfo where
  width : Nat
  height : Nat
  mode : String
deriving DecidableEq

/-- Embedding of `get_image_info` (json-helper.py lines 26-39): a probe
failure is caught and degraded to the `{'width': 0, 'height': 0,
'mode': 'RGB'}` placeholder. -/
def getImageInfo (probe : String → Option ImgInfo) (filename : String) : ImgInfo :=
  (probe filename).getD ⟨0, 0, "RGB"⟩

/-- Python `str.lower` restricted to ASCII case mapping, character by
character (the filenames this pipeline handles are ASCII). -/
def strToLower (s : String) : String :=
  ⟨s.data.map Char.toLower⟩

/-- Python `str.endswith(suffix)`: the last `len(suffix)` characters equal
the suffix. -/
def strEndsWith (s suffix : String) : Bool :=
  decide (s.data.drop (s.data.length - suffix.data.length) = suffix.data)

/-- Worker for `strReplace`, structurally recursive on a fuel bound of the
subject's length: at each position, a non-overlapping occurrence of `old`
is replaced by `new` and skipped, otherwise one character is copied. -/
def strReplaceAux (old new : List Char) : Nat → List Char → List Char
  | 0, s => s
  | _ + 1, [] => []
  | fuel + 1, c :: rest =>
    if old ≠ [] ∧ (c :: rest).take old.length = old then
      new ++ strReplaceAux old new fuel ((c :: rest).drop old.length)
    else
      c :: strReplaceAux old new fuel rest

/-- Python `str.replace(old, new)`: replace every non-overlapping
occurrence of `old`, scanning left to right. -/
def strReplace (s old new : String) : String :=
  ⟨strReplaceAux old.data new.data s.data.length s.data⟩

/-- The extension filter of `scan_layers_directory` (json-helper.py line
18): `filename.lower().endswith('.png')`. -/
def isPngFilename (f : String) : Bool :=
  strEndsWith (strToLower f) ".png"

/-- Code-point lexicographic comparison of character lists, the order by
which Python compares strings in `list.sort`. -/
def lexLe : List Char → List Char → Bool
  | [], _ => true
  | _ :: _, [] => false
  | a :: as, b :: bs =>
    if a < b then true
    else if b < a then false
    else lexLe as bs

/-- Python's string order (code-point lexicographic `<=`) as a relation. -/
def strLe (a b : String) : Prop := lexLe a.data b.data = true

instance : DecidableRel strLe := fun a b => instDecidableEqBool (lexLe a.data b.data) true

/-- Embedding of `scan_layers_directory` (json-helper.py lines 6-24): a
missing directory yields the empty list; otherwise the listing is
filtered case-insensitively to `.png` files and sorted lexicographically
(Python's stable `list.sort`; filenames in one directory are distinct, so
any sorting algorithm yields the same list — we use insertion sort). -/
def scanLayersDirectory (dir : Option (List String)) : List String :=
  match dir with
  | none => []
  | some files => (files.filter (fun f => isPngFilename f)).insertionSort strLe

/-- Embedding of `os.path.splitext(filename)[0]` (json-helper.py line 113)
for the filenames this pipeline feeds it: every scanned filename ends in a
four-character case-variant of `.png`, whose dot is the last dot of the
string; Python splits there unless every character before that dot is
itself a dot (hidden-file rule), in which case nothing is split off. -/
def stemOf (f : String) : String :=
  let pre := f.data.take (f.data.length - 4)
  if pre.any (fun c => c ≠ '.') then ⟨pre⟩ else f

/-- A Layer Descriptor as stored in `layers_info.json`: the operator-owned
`name`/`x`/`y`/`opacity` fields plus the derived `_image_width`,
`_image_height`, `_image_mode` metadata fields. -/
structure Layer where
  name : String
  x : Int
  y : Int
  opacity : ℚ
  imgWidth : Nat
  imgHeight : Nat
  imgMode : String
deriving DecidableEq

/-- The `frame` object of the document. -/
structure Frame where
  width : Nat
  height : Nat
deriving DecidableEq

/-- The Layer Document (`layers_info.json`): a frame plus an ordered list
of Layer Descriptors.  The constant `_instructions` block written by the
Builder is identical on every run and is omitted from the model. -/
structure LayersDoc where
  frame : Frame
  layers : List Layer
deriving DecidableEq

/-- Embedding of the `existing_layers` dict built in json-helper.py lines
102-105: iterating the loaded document's layers and assigning
`existing_layers[layer.get('name','')] = layer` makes the LAST layer with
a given name win.  `findLastLayer ls n` is that dict's entry for `n`. -/
def findLastLayer : List Layer → String → Option Layer
  | [], _ => none
  | l :: ls, n =>
    match findLastLayer ls n with
    | some l' => some l'
    | none => if l.name = n then some l else none

/-- Embedding of the per-file loop of `generate_layers_info` (json-helper.py
lines 107-143): for each scanned filename, either copy the matching
existing descriptor verbatim (merge branch, lines 120-123) or synthesize a
new one with `x = 0`, `y = y_offset`, `opacity = 1.0` and advance
`y_offset` by `max(50, height // 4)` (lines 124-136); in both branches the
three `_image_*` fields are then overwritten from the fresh probe
(lines 139-141). -/
def processLayerFiles (probe : String → Option ImgInfo) (existing : List Layer) :
    List String → Nat → List Layer
  | [], _ => []
  | f :: fs, yOffset =>
    let info := getImageInfo probe f
    match findLastLayer existing (stemOf f) with
    | some l =>
      { l with imgWidth := info.width, imgHeight := info.height, imgMode := info.mode }
        :: processLayerFiles probe existing fs yOffset
    | none =>
      { name := stemOf f, x := 0, y := (yOffset : Int), opacity := 1,
        imgWidth := info.width, imgHeight := info.height, imgMode := info.mode }
        :: processLayerFiles probe existing fs (yOffset + max 50 (info.height / 4))

/-- Embedding of `estimate_canvas_size` (json-helper.py lines 41-54):
fold the probed sizes with `max`, starting from the 800x600 defaults. -/
def estimateCanvasSize (probe : String → Option ImgInfo) (layerFiles : List String) :
    Nat × Nat :=
  layerFiles.foldl
    (fun acc f =>
      let info := getImageInfo probe f
      (max acc.1 info.width, max acc.2 info.height))
    (800, 600)

/-- Embedding of `generate_layers_info` (json-helper.py lines 56-176).
`existingDoc = none` covers create mode, a missing output file in update
mode, and an unreadable existing file (all of which leave
`existing_data = {}`); `existingDoc = some d` covers update mode with a
loaded document.  The function returns the document it writes, or `none`
when no PNG files are found (the Python function returns `False` before
writing anything). -/
def generateLayersInfo (probe : String → Option ImgInfo) (dir : Option (List String))
    (existingDoc : Option LayersDoc) : Option LayersDoc :=
  let layerFiles := scanLayersDirectory dir
  if layerFiles.isEmpty then none
  else
    let est := estimateCanvasSize probe layerFiles
    let frame : Frame :=
      match existingDoc with
      | some d => d.frame
      | none => ⟨est.1, est.2⟩
    let existingLayers : List Layer :=
      match existingDoc with
      | some d => d.layers
      | none => []
    some ⟨frame, processLayerFiles probe existingLayers layerFiles 0⟩

/-- Embedding of `main` in json-helper.py (lines 178-199).  The argument
parser accepts `--canvas-width` and `--canvas-height` ("Override canvas
width/height", lines 183-184), but the call to `generate_layers_info`
(lines 191-195) forwards only the directory, output path and update flag,
so the two override arguments are accepted and then dropped. -/
def jsonHelperMain (probe : String → Option ImgInfo) (dir : Option (List String))
    (updateFlag : Bool) (savedDoc : Option LayersDoc)
    (canvasWidthArg canvasHeightArg : Option Nat) : Option LayersDoc :=
  generateLayersInfo probe dir (if updateFlag then savedDoc else none)

/-- The running-offset value the Builder's stacking heuristic has reached
just before processing the file at index `i` of the scanned list: the sum
of `max(50, height // 4)` over the files before it (json-helper.py line
134). -/
def yOffsetAt (probe : String → Option ImgInfo) (files : List String) (i : Nat) : Nat :=
  ((files.take i).map (fun f => max 50 ((getImageInfo probe f).height / 4))).sum

/-- Embedding of the Assembler's alpha scaling (figmapsd.py line 62):
`alpha.point(lambda p: int(p * opacity))`.  For the non-negative products
that arise here Python `int(...)` is the floor. -/
def scaleAlpha (p : Nat) (opacity : ℚ) : ℤ :=
  ⌊(p : ℚ) * opacity⌋

/-- Embedding of the layer-file lookup shared by both assembler paths
(figmapsd.py lines 39-45 and 120-126): try `name + '.png'`, then
`name.lower() + '.png'`, else the layer is unresolved. -/
def resolveLayerFile (dirFiles : List String) (name : String) : Option String :=
  if name ++ ".png" ∈ dirFiles then some (name ++ ".png")
  else if strToLower name ++ ".png" ∈ dirFiles then some (strToLower name ++ ".png")
  else none

/-- One paste performed by the flattened compositing loop: which file was
painted, where, and with what opacity. -/
structure PaintEvent where
  file : String
  x : Int
  y : Int
  opacity : ℚ
deriving DecidableEq

/-- Embedding of the per-layer loop of `create_composite_and_convert_to_psd`
(figmapsd.py lines 37-75): each layer is resolved by
exact-then-lowercased lookup; an unresolved layer is skipped with a
warning (`continue`), a layer whose image fails to load (`load f = false`,
the `except` branch) is likewise skipped, and every other layer is pasted
at `(x, y)` with its opacity, in document order. -/
def compositeEvents (dirFiles : List String) (load : String → Bool) :
    List Layer → List PaintEvent
  | [] => []
  | l :: ls =>
    match resolveLayerFile dirFiles l.name with
    | none => compositeEvents dirFiles load ls
    | some f =>
      if load f then
        ⟨f, l.x, l.y, l.opacity⟩ :: compositeEvents dirFiles load ls
      else
        compositeEvents dirFiles load ls

/-- One layer argument appended to the ImageMagick command line: the
resolved file, the `-geometry +x+y` offsets, and the opacity converted to
a percentage (figmapsd.py lines 128-137). -/
structure ImEvent where
  file : String
  x : Int
  y : Int
  opacityPercent : ℚ
deriving DecidableEq

/-- One pass of the layer loop of `create_layered_psd_imagemagick`
(figmapsd.py lines 118-139), over an already-reversed list: unresolved
layers are skipped with a warning, resolved ones are appended to the
command in iteration order. -/
def imagemagickLayerLoop (dirFiles : List String) : List Layer → List ImEvent
  | [] => []
  | l :: ls =>
    match resolveLayerFile dirFiles l.name with
    | none => imagemagickLayerLoop dirFiles ls
    | some f => ⟨f, l.x, l.y, l.opacity * 100⟩ :: imagemagickLayerLoop dirFiles ls

/-- The layer arguments `create_layered_psd_imagemagick` hands to the
external encoder: the document's layers are iterated via
`reversed(layers_list)` (figmapsd.py line 118). -/
def imagemagickLayerArgs (dirFiles : List String) (layers : List Layer) : List ImEvent :=
  imagemagickLayerLoop dirFiles layers.reverse

/-- Availability of the two preferred export mechanisms: whether the
`convert` version probe succeeds, whether the subsequent `convert`
invocation succeeds, and whether `psd_tools` imports and runs without
raising. -/
structure ExportEnv where
  magickAvailable : Bool
  magickConvertOk : Bool
  psdToolsOk : Bool
deriving DecidableEq

/-- The tail of `save_as_psd` after the ImageMagick attempt (figmapsd.py
lines 180-217): the psd-tools branch builds an in-memory `PSDImage`,
prints that it created the PSD, and returns `True` — it contains no save
call, so it writes nothing; the PNG fallback writes the composite to the
output path with `.psd` replaced by `.png` and returns `True`.  `files`
accumulates the files present on disk when the function returns. -/
def saveAsPsdAfterMagick (env : ExportEnv) (outputPath : String) (files : List String) :
    Bool × List String :=
  if env.psdToolsOk then
    (true, files)
  else
    (true, files ++ [(strReplace outputPath ".psd" ".png")])

/-- Embedding of `save_as_psd` (figmapsd.py lines 155-217).  Method 1: if
the `convert` probe succeeds, the composite is saved to a temporary PNG,
converted to the output path, and the temporary file removed; if the
conversion subprocess fails the exception is caught (leaving the
temporary file behind) and the chain continues.  Methods 2 and 3 are
`saveAsPsdAfterMagick`.  Returns the reported success flag and the files
written and still present on return. -/
def saveAsPsd (env : ExportEnv) (outputPath : String) : Bool × List String :=
  if env.magickAvailable then
    if env.magickConvertOk then
      (true, [outputPath])
    else
      saveAsPsdAfterMagick env outputPath [(strReplace outputPath ".psd" "_temp.png")]
  else
    saveAsPsdAfterMagick env outputPath []

/-- Embedding of `create_composite_and_convert_to_psd` (figmapsd.py lines
7-78): a missing or unparsable layers-info file returns failure before
any compositing (`docOpt = none`); otherwise every layer is processed by
the skip-tolerant loop and the canvas is always handed to `save_as_psd`.
Returns the reported success flag, the paint events, and the files
present on return. -/
def createCompositeAndConvertToPsd (dirFiles : List String) (load : String → Bool)
    (docOpt : Option LayersDoc) (env : ExportEnv) (outputPath : String) :
    Bool × List PaintEvent × List String :=
  match docOpt with
  | none => (false, [], [])
  | some doc =>
    let events := compositeEvents dirFiles load doc.layers
    let res := saveAsPsd env outputPath
    (res.1, events, res.2)

/-- Exit code of `main` in figmapsd.py (lines 219-258).  Every branch —
missing layers directory (line 230-232), missing layers-info file (lines
234-236), and both the success and failure reports (lines 246-255) —
prints a diagnostic and falls off the end of `main`, so the process always
exits 0 on these paths; no `sys.exit` call exists in the script. -/
def figmapsdExitCode (dirExists infoExists success : Bool) : Nat :=
  if !dirExists then 0
  else if !infoExists then 0
  else if success then 0 else 0

/-- Exit code of `main` in json-helper.py (lines 178-219): on failure it
prints "Failed to generate layers info file." and returns (line 197-199),
on success it prints a preview and returns; no `sys.exit` call exists, so
the process exits 0 either way. -/
def jsonHelperExitCode (success : Bool) : Nat :=
  if success then 0 else 0

/-- Probe for the C1 witness scenario: `banner.png` is 32x64 RGBA. -/
def w1Probe : String → Option ImgInfo :=
  fun f => if f = "banner.png" then some ⟨32, 64, "RGBA"⟩ else none

/-- Opacity 1/2 as an explicit reduced rational. -/
def halfOpacity : ℚ := ⟨1, 2, by decide, by decide⟩

/-- Loaded document for the C1 witness scenario: the operator has edited
`banner` to x=20, y=5, opacity 1/2; the stored metadata is stale. -/
def w1Doc : LayersDoc :=
  ⟨⟨800, 600⟩, [⟨"banner", 20, 5, halfOpacity, 1, 1, "RGB"⟩]⟩

/-- Probe for the C2 witness scenario. -/
def w2Probe : String → Option ImgInfo :=
  fun f =>
    if f = "a.png" then some ⟨300, 200, "RGB"⟩
    else if f = "b.png" then some ⟨100, 300, "RGBA"⟩
    else none

/-- Directory listing for the C2 witness scenario: two raster files (out
of order) and one non-image file. -/
def w2Dir : Option (List String) := some ["b.png", "a.png", "notes.txt"]

/-- Probe for the C3 counterexample: every file is 10x10 RGB. -/
def c3Probe : String → Option ImgInfo := fun _ => some ⟨10, 10, "RGB"⟩

/-- Directory for the C3 counterexample: two files whose stems collide
("a.PNG" and "a.png" both have stem "a"). -/
def c3Dir : Option (List String) := some ["a.PNG", "a.png"]

/-- Probe for the C4 evaluation: `big.png` is 2000x1500. -/
def c4Probe : String → Option ImgInfo :=
  fun f => if f = "big.png" then some ⟨2000, 1500, "RGB"⟩ else none


/-- The contribution of a single layer to the flattened compositing pass:
`none` when the layer is skipped (unresolved or failing to load), the
paint event otherwise. -/
def paintEventOf (dirFiles : List String) (load : String → Bool) (l : Layer) :
    Option PaintEvent :=
  match resolveLayerFile dirFiles l.name with
  | none => none
  | some f => if load f then some ⟨f, l.x, l.y, l.opacity⟩ else none

/-- The contribution of a single layer to the ImageMagick command line:
`none` when unresolved, the layer argument otherwise. -/
def imEventOf (dirFiles : List String) (l : Layer) : Option ImEvent :=
  match resolveLayerFile dirFiles l.name with
  | none => none
  | some f => some ⟨f, l.x, l.y, l.opacity * 100⟩

/-- Translation between the two event records: the same paste, with the
opacity expressed as the percentage the ImageMagick path uses. -/
def toImEvent (e : PaintEvent) : ImEvent :=
  ⟨e.file, e.x, e.y, e.opacity * 100⟩

/-! ## Helper lemmas -/

theorem lexLe_trans : ∀ as bs cs, lexLe as bs = true → lexLe bs cs = true → lexLe as cs = true
  | [], _, _, _, _ => rfl
  | _ :: _, [], _, h, _ => by simp [lexLe] at h
  | _ :: _, _ :: _, [], _, h => by simp [lexLe] at h
  | a :: as, b :: bs, c :: cs, h₁, h₂ => by
    simp only [lexLe] at h₁ h₂ ⊢
    rcases lt_trichotomy a b with hab | hab | hab
    · rcases lt_trichotomy b c with hbc | hbc | hbc
      · simp [lt_trans hab hbc]
      · subst hbc; simp [hab]
      · rw [if_neg (lt_asymm hbc), if_pos hbc] at h₂; simp at h₂
    · subst hab
      rcases lt_trichotomy a c with hac | hac | hac
      · simp [hac]
      · subst hac
        rw [if_neg (lt_irrefl a), if_neg (lt_irrefl a)] at h₁ h₂ ⊢
        exact lexLe_trans as bs cs h₁ h₂
      · rw [if_neg (lt_asymm hac), if_pos hac] at h₂; simp at h₂
    · rw [if_neg (lt_asymm hab), if_pos hab] at h₁; simp at h₁

theorem lexLe_total : ∀ as bs, lexLe as bs = true ∨ lexLe bs as = true
  | [], _ => Or.inl rfl
  | _ :: _, [] => Or.inr rfl
  | a :: as, b :: bs => by
    simp only [lexLe]
    rcases lt_trichotomy a b with h | h | h
    · simp [h]
    · subst h
      simp only [lt_irrefl, if_neg (lt_irrefl a), if_false]
      exact lexLe_total as bs
    · simp [h, lt_asymm h]

theorem strLe_isTrans : IsTrans String strLe :=
  ⟨fun a b c h₁ h₂ => lexLe_trans a.data b.data c.data h₁ h₂⟩

theorem strLe_isTotal : IsTotal String strLe :=
  ⟨fun a b => lexLe_total a.data b.data⟩

theorem findLastLayer_name : ∀ (ls : List Layer) (n : String) (l : Layer),
    findLastLayer ls n = some l → l.name = n
  | [], _, _, h => by simp [findLastLayer] at h
  | a :: ls, n, l, h => by
    simp only [findLastLayer] at h
    cases hrec : findLastLayer ls n with
    | some l' =>
      rw [hrec] at h
      cases h
      exact findLastLayer_name ls n _ hrec
    | none =>
      rw [hrec] at h
      by_cases hn : a.name = n
      · rw [if_pos hn] at h; cases h; exact hn
      · rw [if_neg hn] at h; cases h

theorem findLastLayer_eq_none : ∀ (ls : List Layer) (n : String),
    n ∉ ls.map Layer.name → findLastLayer ls n = none
  | [], _, _ => rfl
  | a :: ls, n, h => by
    simp only [List.map_cons, List.mem_cons, not_or] at h
    simp only [findLastLayer, findLastLayer_eq_none ls n h.2]
    rw [if_neg (fun hc => h.1 hc.symm)]

theorem findLastLayer_nodup : ∀ (ls : List Layer),
    (ls.map Layer.name).Nodup → ∀ (i : Nat) (l : Layer), ls[i]? = some l →
      findLastLayer ls l.name = some l
  | [], _, i, l, h => by simp at h
  | a :: ls, hnd, i, l, h => by
    simp only [List.map_cons, List.nodup_cons] at hnd
    match i with
    | 0 =>
      simp only [List.getElem?_cons_zero, Option.some.injEq] at h
      subst h
      simp [findLastLayer, findLastLayer_eq_none ls a.name hnd.1]
    | i + 1 =>
      simp only [List.getElem?_cons_succ] at h
      have hrec := findLastLayer_nodup ls hnd.2 i l h
      simp only [findLastLayer, hrec]

theorem processLayerFiles_length (probe : String → Option ImgInfo) (ex : List Layer) :
    ∀ (fs : List String) (y : Nat), (processLayerFiles probe ex fs y).length = fs.length
  | [], _ => rfl
  | f :: fs, y => by
    simp only [processLayerFiles]
    cases hfl : findLastLayer ex (stemOf f) <;>
      simp [hfl, processLayerFiles_length probe ex fs]

theorem processLayerFiles_get_merge (probe : String → Option ImgInfo) (ex : List Layer) :
    ∀ (fs : List String) (y i : Nat) (f : String) (l : Layer), fs[i]? = some f →
      findLastLayer ex (stemOf f) = some l →
      (processLayerFiles probe ex fs y)[i]? =
        some { l with
          imgWidth := (getImageInfo probe f).width,
          imgHeight := (getImageInfo probe f).height,
          imgMode := (getImageInfo probe f).mode }
  | [], _, i, _, _, h, _ => by simp at h
  | f0 :: fs, y, 0, f, l, h, hl => by
    simp only [List.getElem?_cons_zero, Option.some.injEq] at h
    subst h
    simp [processLayerFiles, hl]
  | f0 :: fs, y, i + 1, f, l, h, hl => by
    simp only [List.getElem?_cons_succ] at h
    simp only [processLayerFiles]
    cases hfl : findLastLayer ex (stemOf f0) <;>
      simpa [hfl] using processLayerFiles_get_merge probe ex fs _ i f l h hl

theorem yOffsetAt_zero (probe : String → Option ImgInfo) (fs : List String) :
    yOffsetAt probe fs 0 = 0 := by
  simp [yOffsetAt]

theorem yOffsetAt_succ_cons (probe : String → Option ImgInfo) (f : String) (fs : List String)
    (i : Nat) :
    yOffsetAt probe (f :: fs) (i + 1) =
      max 50 ((getImageInfo probe f).height / 4) + yOffsetAt probe fs i := by
  simp [yOffsetAt, List.take_succ_cons]

theorem yOffsetAt_mono (probe : String → Option ImgInfo) (fs : List String) {i j : Nat}
    (h : i ≤ j) : yOffsetAt probe fs i ≤ yOffsetAt probe fs j := by
  unfold yOffsetAt
  rw [List.map_take, List.map_take]
  obtain ⟨k, rfl⟩ := Nat.le.dest h
  rw [List.take_add, List.sum_append]
  exact Nat.le_add_right _ _

theorem processLayerFiles_nil_get (probe : String → Option ImgInfo) :
    ∀ (fs : List String) (y i : Nat) (f : String), fs[i]? = some f →
      (processLayerFiles probe [] fs y)[i]? =
        some ⟨stemOf f, 0, ((y + yOffsetAt probe fs i : Nat) : Int), 1,
          (getImageInfo probe f).width, (getImageInfo probe f).height,
          (getImageInfo probe f).mode⟩
  | [], _, i, _, h => by simp at h
  | f0 :: fs, y, 0, f, h => by
    simp only [List.getElem?_cons_zero, Option.some.injEq] at h
    subst h
    simp [processLayerFiles, findLastLayer, yOffsetAt_zero]
  | f0 :: fs, y, i + 1, f, h => by
    simp only [List.getElem?_cons_succ] at h
    have := processLayerFiles_nil_get probe fs (y + max 50 ((getImageInfo probe f0).height / 4))
      i f h
    simp only [processLayerFiles, findLastLayer, List.getElem?_cons_succ]
    rw [this, yOffsetAt_succ_cons]
    congr 2
    omega

theorem processLayerFiles_map_name (probe : String → Option ImgInfo) (ex : List Layer) :
    ∀ (fs : List String) (y : Nat),
      (processLayerFiles probe ex fs y).map Layer.name = fs.map stemOf
  | [], _ => rfl
  | f :: fs, y => by
    simp only [processLayerFiles]
    cases hfl : findLastLayer ex (stemOf f) with
    | some l =>
      simp [hfl, findLastLayer_name ex (stemOf f) l hfl,
        processLayerFiles_map_name probe ex fs]
    | none =>
      simp [hfl, processLayerFiles_map_name probe ex fs]

theorem processLayerFiles_get_shape (probe : String → Option ImgInfo) (ex : List Layer) :
    ∀ (fs : List String) (y i : Nat) (f : String), fs[i]? = some f →
      ∃ l : Layer, (processLayerFiles probe ex fs y)[i]? = some l ∧
        l.name = stemOf f ∧
        l.imgWidth = (getImageInfo probe f).width ∧
        l.imgHeight = (getImageInfo probe f).height ∧
        l.imgMode = (getImageInfo probe f).mode
  | [], _, i, _, h => by simp at h
  | f0 :: fs, y, 0, f, h => by
    simp only [List.getElem?_cons_zero, Option.some.injEq] at h
    subst h
    cases hfl : findLastLayer ex (stemOf f0) with
    | some l =>
      exact ⟨{ l with
          imgWidth := (getImageInfo probe f0).width,
          imgHeight := (getImageInfo probe f0).height,
          imgMode := (getImageInfo probe f0).mode },
        by simp [processLayerFiles, hfl],
        findLastLayer_name ex (stemOf f0) l hfl, rfl, rfl, rfl⟩
    | none =>
      exact ⟨⟨stemOf f0, 0, (y : Int), 1, (getImageInfo probe f0).width,
                (getImageInfo probe f0).height, (getImageInfo probe f0).mode⟩,
        by simp [processLayerFiles, hfl], rfl, rfl, rfl, rfl⟩
  | f0 :: fs, y, i + 1, f, h => by
    simp only [List.getElem?_cons_succ] at h
    simp only [processLayerFiles]
    cases hfl : findLastLayer ex (stemOf f0) with
    | some l =>
      simpa [hfl] using processLayerFiles_get_shape probe ex fs y i f h
    | none =>
      simpa [hfl] using
        processLayerFiles_get_shape probe ex fs (y + max 50 ((getImageInfo probe f0).height / 4))
          i f h

theorem processLayerFiles_fixpoint (probe : String → Option ImgInfo) (E : List Layer) :
    ∀ (fs : List String) (L : List Layer) (y : Nat), fs.length = L.length →
      (∀ (i : Nat) (f : String) (l : Layer), fs[i]? = some f → L[i]? = some l →
        findLastLayer E (stemOf f) = some l ∧
        l.imgWidth = (getImageInfo probe f).width ∧
        l.imgHeight = (getImageInfo probe f).height ∧
        l.imgMode = (getImageInfo probe f).mode) →
      processLayerFiles probe E fs y = L
  | [], [], _, _, _ => rfl
  | [], _ :: _, _, hlen, _ => by simp at hlen
  | _ :: _, [], _, hlen, _ => by simp at hlen
  | f :: fs, l :: L, y, hlen, h => by
    obtain ⟨hfl, hw, hh, hm⟩ := h 0 f l (by simp) (by simp)
    simp only [processLayerFiles, hfl]
    refine congrArg₂ List.cons ?_ ?_
    · cases l
      simp_all
    · exact processLayerFiles_fixpoint probe E fs L y (by simpa using hlen)
        (fun i f' l' hf' hl' => h (i + 1) f' l' (by simpa using hf') (by simpa using hl'))

theorem generateLayersInfo_update_eq (probe : String → Option ImgInfo)
    (dir : Option (List String)) (d out : LayersDoc)
    (h : generateLayersInfo probe dir (some d) = some out) :
    out.frame = d.frame ∧
    out.layers = processLayerFiles probe d.layers (scanLayersDirectory dir) 0 := by
  unfold generateLayersInfo at h
  by_cases he : (scanLayersDirectory dir).isEmpty
  · rw [if_pos he] at h; cases h
  · rw [if_neg he] at h
    cases h
    exact ⟨rfl, rfl⟩

theorem generateLayersInfo_create_eq (probe : String → Option ImgInfo)
    (dir : Option (List String)) (h : scanLayersDirectory dir ≠ []) :
    generateLayersInfo probe dir none =
      some ⟨⟨(estimateCanvasSize probe (scanLayersDirectory dir)).1,
             (estimateCanvasSize probe (scanLayersDirectory dir)).2⟩,
            processLayerFiles probe [] (scanLayersDirectory dir) 0⟩ := by
  unfold generateLayersInfo
  rw [if_neg (by simpa using h)]

theorem generateLayersInfo_update_some (probe : String → Option ImgInfo)
    (dir : Option (List String)) (d : LayersDoc) (h : scanLayersDirectory dir ≠ []) :
    generateLayersInfo probe dir (some d) =
      some ⟨d.frame, processLayerFiles probe d.layers (scanLayersDirectory dir) 0⟩ := by
  unfold generateLayersInfo
  rw [if_neg (by simpa using h)]

theorem compositeEvents_eq_filterMap (dirFiles : List String) (load : String → Bool) :
    ∀ ls : List Layer,
      compositeEvents dirFiles load ls = ls.filterMap (paintEventOf dirFiles load)
  | [] => rfl
  | l :: ls => by
    simp only [compositeEvents, List.filterMap_cons, paintEventOf]
    cases hr : resolveLayerFile dirFiles l.name with
    | none => exact compositeEvents_eq_filterMap dirFiles load ls
    | some f =>
      by_cases hl : load f
      · simp [hl, compositeEvents_eq_filterMap dirFiles load ls]
      · simp [hl, compositeEvents_eq_filterMap dirFiles load ls]

theorem imagemagickLayerLoop_eq_filterMap (dirFiles : List String) :
    ∀ ls : List Layer, imagemagickLayerLoop dirFiles ls = ls.filterMap (imEventOf dirFiles)
  | [] => rfl
  | l :: ls => by
    simp only [imagemagickLayerLoop, List.filterMap_cons, imEventOf]
    cases hr : resolveLayerFile dirFiles l.name with
    | none => exact imagemagickLayerLoop_eq_filterMap dirFiles ls
    | some f => simp [imagemagickLayerLoop_eq_filterMap dirFiles ls]

theorem compositeEvents_mem (dirFiles : List String) (load : String → Bool) :
    ∀ (ls : List Layer) (l : Layer) (f : String), l ∈ ls →
      resolveLayerFile dirFiles l.name = some f → load f = true →
      (⟨f, l.x, l.y, l.opacity⟩ : PaintEvent) ∈ compositeEvents dirFiles load ls
  | [], _, _, hmem, _, _ => by simp at hmem
  | a :: ls, l, f, hmem, hr, hl => by
    rcases List.mem_cons.mp hmem with rfl | hmem
    · simp [compositeEvents, hr, hl]
    · have hrec := compositeEvents_mem dirFiles load ls l f hmem hr hl
      simp only [compositeEvents]
      cases resolveLayerFile dirFiles a.name with
      | none => exact hrec
      | some g =>
        by_cases hg : load g
        · simp [hg, hrec]
        · simp [hg, hrec]

theorem paintEventOf_map_toImEvent (dirFiles : List String) (l : Layer) :
    (paintEventOf dirFiles (fun _ => true) l).map toImEvent = imEventOf dirFiles l := by
  unfold paintEventOf imEventOf
  cases resolveLayerFile dirFiles l.name <;> simp [toImEvent]

theorem compositeEvents_files_sublist (dirFiles : List String) (load : String → Bool) :
    ∀ ls : List Layer,
      ((compositeEvents dirFiles load ls).map PaintEvent.file).Sublist
        (ls.filterMap (fun l => resolveLayerFile dirFiles l.name))
  | [] => List.Sublist.refl _
  | l :: ls => by
    simp only [compositeEvents, List.filterMap_cons]
    cases hr : resolveLayerFile dirFiles l.name with
    | none => exact compositeEvents_files_sublist dirFiles load ls
    | some f =>
      by_cases hl : load f
      · simp only [hl, if_true, List.map_cons]
        exact List.Sublist.cons₂ f (compositeEvents_files_sublist dirFiles load ls)
      · simp only [hl, if_false]
        exact List.Sublist.cons f (compositeEvents_files_sublist dirFiles load ls)

/-! ## Claim theorems -/

/-- C1: for every update-mode Builder run over a loaded document, every
discovered file whose stem names an already-present Layer Descriptor gets
that descriptor copied verbatim — same `name`, `x`, `y` and `opacity`,
whatever the fresh probe returns — with only the three derived `_image_*`
fields refreshed from the new probe. -/
theorem update_preserves_position_and_opacity
    (probe : String → Option ImgInfo) (dir : Option (List String)) (d out : LayersDoc)
    (hgen : generateLayersInfo probe dir (some d) = some out)
    (i : Nat) (f : String) (hf : (scanLayersDirectory dir)[i]? = some f)
    (l : Layer) (hl : findLastLayer d.layers (stemOf f) = some l) :
    out.layers[i]? = some { l with
      imgWidth := (getImageInfo probe f).width
      imgHeight := (getImageInfo probe f).height
      imgMode := (getImageInfo probe f).mode } := by
  obtain ⟨-, hlayers⟩ := generateLayersInfo_update_eq probe dir d out hgen
  rw [hlayers]
  exact processLayerFiles_get_merge probe d.layers (scanLayersDirectory dir) 0 i f l hf hl

/-- C1 witness: the operator-edited `banner` descriptor (x=20, y=5,
opacity 1/2) survives an update-mode run verbatim while its stale metadata
is refreshed to the fresh 32x64 RGBA probe. -/
theorem update_preserves_position_and_opacity_witness :
    (⟨⟨800, 600⟩, [⟨"banner", 20, 5, halfOpacity, 32, 64, "RGBA"⟩]⟩ : LayersDoc).layers[0]? =
      some { (⟨"banner", 20, 5, halfOpacity, 1, 1, "RGB"⟩ : Layer) with
        imgWidth := (getImageInfo w1Probe "banner.png").width
        imgHeight := (getImageInfo w1Probe "banner.png").height
        imgMode := (getImageInfo w1Probe "banner.png").mode } :=
  update_preserves_position_and_opacity w1Probe (some ["banner.png"]) w1Doc
    ⟨⟨800, 600⟩, [⟨"banner", 20, 5, halfOpacity, 32, 64, "RGBA"⟩]⟩
    (by decide) 0 "banner.png" (by decide)
    ⟨"banner", 20, 5, halfOpacity, 1, 1, "RGB"⟩ (by decide)

/-- C2 counterexample: an existing directory with zero raster files (one
non-image file) makes the Builder return failure without producing any
document at all, rather than a document with zero Layer Descriptors. -/
theorem create_mode_empty_dir_counterexample :
    generateLayersInfo (fun _ => none) (some ["notes.txt"]) none = none := by
  decide

/-- C2 (amended): for every existing directory with at least one raster
image file, create mode produces a document whose descriptors are in
bijection with the lexicographically sorted raster filenames, each
synthesized with `x = 0`, `opacity = 1.0`, and `y` the running offset that
starts at 0 and grows by `max(50, probed_height / 4)` after each
descriptor, so the offsets are monotonically non-decreasing.  (With zero
raster files no document is produced.) -/
theorem create_mode_sorted_stacked (probe : String → Option ImgInfo)
    (dir : Option (List String)) (hne : scanLayersDirectory dir ≠ []) :
    ∃ out : LayersDoc, generateLayersInfo probe dir none = some out ∧
      out.layers.length = (scanLayersDirectory dir).length ∧
      (scanLayersDirectory dir).Sorted strLe ∧
      (∀ dfs : List String, dir = some dfs →
        (scanLayersDirectory dir).Perm (dfs.filter (fun f => isPngFilename f))) ∧
      (∀ (i : Nat) (f : String), (scanLayersDirectory dir)[i]? = some f →
        out.layers[i]? = some ⟨stemOf f, 0, (yOffsetAt probe (scanLayersDirectory dir) i : Int),
          1, (getImageInfo probe f).width, (getImageInfo probe f).height,
          (getImageInfo probe f).mode⟩) ∧
      (∀ i j : Nat, i ≤ j → yOffsetAt probe (scanLayersDirectory dir) i ≤
        yOffsetAt probe (scanLayersDirectory dir) j) := by
  refine ⟨_, generateLayersInfo_create_eq probe dir hne, ?_, ?_, ?_, ?_, ?_⟩
  · exact processLayerFiles_length probe [] _ 0
  · cases dir with
    | none => exact List.sorted_nil
    | some dfs =>
      haveI := strLe_isTotal
      haveI := strLe_isTrans
      exact List.sorted_insertionSort strLe _
  · intro dfs hdfs
    subst hdfs
    exact List.perm_insertionSort strLe _
  · intro i f hf
    have h := processLayerFiles_nil_get probe (scanLayersDirectory dir) 0 i f hf
    simpa using h
  · intro i j hij
    exact yOffsetAt_mono probe _ hij

/-- C2 witness: the directory listing `b.png`, `a.png`, `notes.txt` has at
least one raster file, so the amended creation property holds of it. -/
theorem create_mode_sorted_stacked_witness :
    ∃ out : LayersDoc, generateLayersInfo w2Probe w2Dir none = some out ∧
      out.layers.length = (scanLayersDirectory w2Dir).length ∧
      (scanLayersDirectory w2Dir).Sorted strLe ∧
      (∀ dfs : List String, w2Dir = some dfs →
        (scanLayersDirectory w2Dir).Perm (dfs.filter (fun f => isPngFilename f))) ∧
      (∀ (i : Nat) (f : String), (scanLayersDirectory w2Dir)[i]? = some f →
        out.layers[i]? = some ⟨stemOf f, 0, (yOffsetAt w2Probe (scanLayersDirectory w2Dir) i : Int),
          1, (getImageInfo w2Probe f).width, (getImageInfo w2Probe f).height,
          (getImageInfo w2Probe f).mode⟩) ∧
      (∀ i j : Nat, i ≤ j → yOffsetAt w2Probe (scanLayersDirectory w2Dir) i ≤
        yOffsetAt w2Probe (scanLayersDirectory w2Dir) j) :=
  create_mode_sorted_stacked w2Probe w2Dir (by decide)

/-- C3 counterexample: over the directory `a.PNG`, `a.png` (two files, one
stem) a first update-mode run and a second update-mode run over its output
disagree, because the name-keyed lookup makes the last descriptor named
`a` overwrite the first, so update mode is not idempotent as claimed. -/
theorem update_mode_not_idempotent_dup_stems :
    (generateLayersInfo c3Probe c3Dir none).bind
        (fun d1 => generateLayersInfo c3Probe c3Dir (some d1)) ≠
      generateLayersInfo c3Probe c3Dir none := by
  decide

/-- C3 (amended): update mode is idempotent for an unchanged directory
provided the discovered files have pairwise distinct stems (the case in
every well-formed catalog, where names are unique): whatever document a
first update-mode run produced, running update mode again over the same
directory with unchanged files reproduces that document exactly. -/
theorem update_mode_idempotent_distinct_stems (probe : String → Option ImgInfo)
    (dir : Option (List String)) (ex0 : Option LayersDoc) (d1 : LayersDoc)
    (hnd : ((scanLayersDirectory dir).map stemOf).Nodup)
    (h1 : generateLayersInfo probe dir ex0 = some d1) :
    generateLayersInfo probe dir (some d1) = some d1 := by
  have hne : scanLayersDirectory dir ≠ [] := by
    intro h0
    unfold generateLayersInfo at h1
    rw [h0] at h1
    simp at h1
  have hE : ∃ E : List Layer,
      d1.layers = processLayerFiles probe E (scanLayersDirectory dir) 0 := by
    cases ex0 with
    | none =>
      have h := generateLayersInfo_create_eq probe dir hne
      rw [h1] at h
      exact ⟨[], by rw [Option.some_inj.mp h]⟩
    | some d0 =>
      exact ⟨d0.layers, (generateLayersInfo_update_eq probe dir d0 d1 h1).2⟩
  obtain ⟨E, hE⟩ := hE
  have hlen : d1.layers.length = (scanLayersDirectory dir).length := by
    rw [hE]
    exact processLayerFiles_length probe E _ 0
  have hnames : d1.layers.map Layer.name = (scanLayersDirectory dir).map stemOf := by
    rw [hE]
    exact processLayerFiles_map_name probe E _ 0
  have hndnames : (d1.layers.map Layer.name).Nodup := by
    rw [hnames]
    exact hnd
  rw [generateLayersInfo_update_some probe dir d1 hne]
  have hfix : processLayerFiles probe d1.layers (scanLayersDirectory dir) 0 = d1.layers := by
    apply processLayerFiles_fixpoint probe d1.layers (scanLayersDirectory dir) d1.layers 0
      hlen.symm
    intro i f l hf hl
    obtain ⟨l', hl', hname, hw, hh, hm⟩ :=
      processLayerFiles_get_shape probe E (scanLayersDirectory dir) 0 i f hf
    rw [← hE, hl] at hl'
    cases Option.some_inj.mp hl'
    have hfind := findLastLayer_nodup d1.layers hndnames i l hl
    rw [hname] at hfind
    exact ⟨hfind, hw, hh, hm⟩
  rw [hfix]

/-- C3 witness: over the distinct-stem directory `b.png`, `a.png`,
`notes.txt`, the document produced by a first update-mode run is exactly
reproduced by a second update-mode run. -/
theorem update_mode_idempotent_distinct_stems_witness :
    generateLayersInfo w2Probe w2Dir
        (some ⟨⟨800, 600⟩, [⟨"a", 0, 0, 1, 300, 200, "RGB"⟩,
          ⟨"b", 0, 50, 1, 100, 300, "RGBA"⟩]⟩) =
      some ⟨⟨800, 600⟩, [⟨"a", 0, 0, 1, 300, 200, "RGB"⟩,
        ⟨"b", 0, 50, 1, 100, 300, "RGBA"⟩]⟩ :=
  update_mode_idempotent_distinct_stems w2Probe w2Dir none
    ⟨⟨800, 600⟩, [⟨"a", 0, 0, 1, 300, 200, "RGB"⟩, ⟨"b", 0, 50, 1, 100, 300, "RGBA"⟩]⟩
    (by decide) (by decide)

/-- C4 evaluation: the CLI accepts `--canvas-width 1000 --canvas-height
1000` but `main` never forwards them to `generate_layers_info`, so over a
directory whose probed maximum is 2000x1500 the produced frame is
2000x1500 — the explicit override does not win, contradicting both the
claim and the argument parser's own "Override canvas width/height"
documentation. -/
theorem canvas_override_ignored :
    jsonHelperMain c4Probe (some ["big.png"]) false none (some 1000) (some 1000) =
      jsonHelperMain c4Probe (some ["big.png"]) false none none none ∧
    (jsonHelperMain c4Probe (some ["big.png"]) false none (some 1000) (some 1000)).map
        LayersDoc.frame = some ⟨2000, 1500⟩ :=
  ⟨rfl, by decide⟩

/-- C5 evaluation: with ImageMagick absent and psd-tools importable,
`save_as_psd` reports success yet leaves no file on disk (the psd-tools
branch never saves the `PSDImage` it builds), so the computed pixels are
silently lost on a success path; with both mechanisms absent the raster
fallback does write `output.png` and reports success-with-degradation as
the claim states. -/
theorem export_chain_psdtools_silent_loss :
    saveAsPsd ⟨false, false, true⟩ "output.psd" = (true, []) ∧
    saveAsPsd ⟨false, false, false⟩ "output.psd" = (true, ["output.png"]) := by
  decide

/-- C6: the Assembler's alpha scaling `int(sample * opacity)` is monotone
in the opacity for every source sample in [0,255], and its result always
lies in [0,255] for opacities in [0,1]. -/
theorem alpha_scaling_monotone_clamped :
    (∀ (p : Nat) (o1 o2 : ℚ), p ≤ 255 → 0 ≤ o1 → o1 < o2 → o2 ≤ 1 →
      scaleAlpha p o1 ≤ scaleAlpha p o2) ∧
    (∀ (p : Nat) (o : ℚ), p ≤ 255 → 0 ≤ o → o ≤ 1 →
      0 ≤ scaleAlpha p o ∧ scaleAlpha p o ≤ 255) := by
  constructor
  · intro p o1 o2 _ _ h12 _
    exact Int.floor_le_floor (mul_le_mul_of_nonneg_left h12.le (by positivity))
  · intro p o hp ho ho1
    constructor
    · exact Int.floor_nonneg.mpr (mul_nonneg (by positivity) ho)
    · have h : (p : ℚ) * o ≤ 255 := by
        calc (p : ℚ) * o ≤ (p : ℚ) * 1 := mul_le_mul_of_nonneg_left ho1 (by positivity)
        _ = (p : ℚ) := mul_one _
        _ ≤ 255 := by exact_mod_cast hp
      have h2 := Int.floor_le_floor h
      simpa [scaleAlpha] using h2

/-- C6 witness: at sample 200, scaling by opacity 0 is at most scaling by
opacity 1, and scaling by opacity 1 stays within [0,255]. -/
theorem alpha_scaling_monotone_clamped_witness :
    scaleAlpha 200 0 ≤ scaleAlpha 200 1 ∧
    0 ≤ scaleAlpha 200 1 ∧ scaleAlpha 200 1 ≤ 255 :=
  ⟨alpha_scaling_monotone_clamped.1 200 0 1 (by decide) (by decide) (by decide) (by decide),
   (alpha_scaling_monotone_clamped.2 200 1 (by decide) (by decide) (by decide)).1,
   (alpha_scaling_monotone_clamped.2 200 1 (by decide) (by decide) (by decide)).2⟩

/-- C7: a layer that does resolve and load is always painted, whatever
other layers fail to resolve or load, and the composite is always handed
to the export step — the Assembler's reported result is exactly the
export chain's, never an abort caused by a bad layer. -/
theorem bad_layer_never_aborts_composite
    (dirFiles : List String) (load : String → Bool) (d : LayersDoc) (env : ExportEnv)
    (outputPath : String) (l : Layer) (f : String)
    (hmem : l ∈ d.layers) (hres : resolveLayerFile dirFiles l.name = some f)
    (hload : load f = true) :
    (⟨f, l.x, l.y, l.opacity⟩ : PaintEvent) ∈
        (createCompositeAndConvertToPsd dirFiles load (some d) env outputPath).2.1 ∧
    (createCompositeAndConvertToPsd dirFiles load (some d) env outputPath).1 =
      (saveAsPsd env outputPath).1 := by
  refine ⟨?_, rfl⟩
  simpa [createCompositeAndConvertToPsd] using
    compositeEvents_mem dirFiles load d.layers l f hmem hres hload

/-- C7 witness: in a document whose first layer (`missing`) resolves to no
file, the second layer (`good`) is still painted and the run still reaches
the export chain. -/
theorem bad_layer_never_aborts_composite_witness :
    (⟨"good.png", 3, 4, 1⟩ : PaintEvent) ∈
        (createCompositeAndConvertToPsd ["good.png"] (fun _ => true)
          (some ⟨⟨800, 600⟩, [⟨"missing", 0, 0, 1, 0, 0, "RGB"⟩,
            ⟨"good", 3, 4, 1, 0, 0, "RGB"⟩]⟩)
          ⟨false, false, false⟩ "o.psd").2.1 ∧
    (createCompositeAndConvertToPsd ["good.png"] (fun _ => true)
        (some ⟨⟨800, 600⟩, [⟨"missing", 0, 0, 1, 0, 0, "RGB"⟩,
          ⟨"good", 3, 4, 1, 0, 0, "RGB"⟩]⟩)
        ⟨false, false, false⟩ "o.psd").1 =
      (saveAsPsd ⟨false, false, false⟩ "o.psd").1 :=
  bad_layer_never_aborts_composite ["good.png"] (fun _ => true)
    ⟨⟨800, 600⟩, [⟨"missing", 0, 0, 1, 0, 0, "RGB"⟩, ⟨"good", 3, 4, 1, 0, 0, "RGB"⟩]⟩
    ⟨false, false, false⟩ "o.psd"
    ⟨"good", 3, 4, 1, 0, 0, "RGB"⟩ "good.png" (by decide) (by decide) rfl

/-- C8: the flattened path paints the resolvable layers in document order
(their painted files are a sublist of the document-order resolutions, and
with every load succeeding exactly that list), while the ImageMagick
layered path hands the same layers to the external encoder in exactly the
reverse of document order. -/
theorem paint_order_conventions (dirFiles : List String) (load : String → Bool)
    (layers : List Layer) :
    imagemagickLayerArgs dirFiles layers =
      ((compositeEvents dirFiles (fun _ => true) layers).map toImEvent).reverse ∧
    ((compositeEvents dirFiles load layers).map PaintEvent.file).Sublist
      (layers.filterMap (fun l => resolveLayerFile dirFiles l.name)) ∧
    (compositeEvents dirFiles (fun _ => true) layers).map PaintEvent.file =
      layers.filterMap (fun l => resolveLayerFile dirFiles l.name) := by
  refine ⟨?_, compositeEvents_files_sublist dirFiles load layers, ?_⟩
  · rw [imagemagickLayerArgs, imagemagickLayerLoop_eq_filterMap,
      List.filterMap_reverse, compositeEvents_eq_filterMap, List.map_filterMap]
    simp only [paintEventOf_map_toImEvent]
  · rw [compositeEvents_eq_filterMap, List.map_filterMap]
    congr 1
    funext l
    unfold paintEventOf
    cases resolveLayerFile dirFiles l.name <;> simp

/-- C9 evaluation: neither script contains a `sys.exit` call, so a run
with a missing layers directory, a run with a missing layers-info file,
and a failed Builder run all print their error and exit 0 — there is no
input on which an unrecoverable failure yields a non-zero exit. -/
theorem unrecoverable_failures_exit_zero :
    figmapsdExitCode false true true = 0 ∧
    figmapsdExitCode true false true = 0 ∧
    jsonHelperExitCode false = 0 := by
  decide

/-- C10 counterexample: in the directory `Logo.PNG`, `logo.png`, the file
`Logo.PNG` has a non-lowercase extension and is cataloged by the Builder,
yet the Assembler does resolve its descriptor (to the other file
`logo.png` via the lowercased lookup), so such a layer is not always
skipped. -/
theorem case_variant_resolves_via_other_file :
    "Logo.PNG" ∈ scanLayersDirectory (some ["Logo.PNG", "logo.png"]) ∧
    isPngFilename "Logo.PNG" = true ∧
    strEndsWith "Logo.PNG" ".png" = false ∧
    resolveLayerFile ["Logo.PNG", "logo.png"] (stemOf "Logo.PNG") = some "logo.png" := by
  decide

/-- C10 (amended): a file with a case-variant `.png` extension is always
cataloged by the Builder, and its descriptor is unresolvable by the
Assembler — hence always skipped — whenever the directory holds no
separate literal-`.png` file with the same exact or lowercased stem (in
particular whenever the case-variant file is the only file with that
stem). -/
theorem case_variant_catalogued_not_resolved (dirFiles : List String) (f : String)
    (hmem : f ∈ dirFiles) (hpng : isPngFilename f = true)
    (h1 : stemOf f ++ ".png" ∉ dirFiles)
    (h2 : strToLower (stemOf f) ++ ".png" ∉ dirFiles) :
    f ∈ scanLayersDirectory (some dirFiles) ∧
    resolveLayerFile dirFiles (stemOf f) = none := by
  constructor
  · simp only [scanLayersDirectory]
    rw [List.mem_insertionSort]
    exact List.mem_filter.mpr ⟨hmem, hpng⟩
  · unfold resolveLayerFile
    rw [if_neg h1, if_neg h2]

/-- C10 witness: in a directory holding only `Logo.PNG`, the Builder
catalogs the file but the Assembler cannot resolve the `Logo` descriptor. -/
theorem case_variant_catalogued_not_resolved_witness :
    "Logo.PNG" ∈ scanLayersDirectory (some ["Logo.PNG"]) ∧
    resolveLayerFile ["Logo.PNG"] (stemOf "Logo.PNG") = none :=
  case_variant_catalogued_not_resolved ["Logo.PNG"] "Logo.PNG" (by decide) (by decide)
    (by decide) (by decide)
